import Mathlib

/-!
Shallow embedding of `src/cups/filter/rastertopm110.c`, the CUPS filter that
converts CUPS raster pages into the Phomemo M110/M220 command byte stream.

Bytes are modelled as `Nat` values (always reduced mod 256 where the C code
casts to `unsigned char`); the output streams are `List Nat`.  The CUPS
library calls (`cupsRasterOpen`, `cupsRasterReadHeader2`,
`cupsRasterReadPixels`, `open`, `malloc`) are modelled as oracles recorded in
the input structure: a page is a header plus the list of pixel rows the
stream can still deliver, and the success of each `malloc`/`open` call is a
boolean of the input.  The contents a fresh `malloc` buffer happens to hold
are modelled by the `junk` field, since the C program can (and on a short
read does) emit uninitialized bytes.
-/

namespace PM110

/-- `ESC` command byte, from the C `#define ESC 0x1b`. -/
def ESC : Nat := 0x1b

/-- `GS` command byte, from the C `#define GS 0x1d`. -/
def GS : Nat := 0x1d

/-- Embedding of `send_header`: writes speed, density and media-type
commands to stdout.  The C code stores `(unsigned char)media_type`, i.e. the
value reduced mod 256. -/
def send_header (media_type : Nat) : List Nat :=
  [ESC, 0x4e, 0x0d, 5] ++
  [ESC, 0x4e, 0x04, 10] ++
  [0x1f, 0x11, media_type % 256]

/-- Embedding of `send_raster`: the `GS v 0` raster command header followed
by `width_bytes * height` bytes taken from the page buffer.  The 16-bit
little-endian fields are produced exactly as the C `& 0xff` / `>> 8`
expressions do. -/
def send_raster (data : List Nat) (width height : Nat) : List Nat :=
  let width_bytes := (width + 7) / 8
  [GS, 0x76, 0x30, 0] ++
  [width_bytes % 256, (width_bytes >>> 8) % 256] ++
  [height % 256, (height >>> 8) % 256] ++
  data.take (width_bytes * height)

/-- Embedding of `send_footer`: the two end-of-job command frames. -/
def send_footer : List Nat :=
  [0x1f, 0xf0, 0x05, 0x00] ++ [0x1f, 0xf0, 0x03, 0x00]

/-- Body of the pixel loop of `convert_line_to_1bit`: for pixel `x`, if the
sample is strictly below 128 set bit `7 - (x % 8)` of byte `x / 8`. -/
def setPixel (src : List Nat) (dst : List Nat) (x : Nat) : List Nat :=
  if src.getD x 0 < 128 then
    dst.set (x / 8) (dst.getD (x / 8) 0 ||| (1 <<< (7 - x % 8)))
  else dst

/-- Embedding of `convert_line_to_1bit`: `memset` the output row to zero,
then run the pixel loop over `x ∈ [0, width)`. -/
def convert_line_to_1bit (src : List Nat) (width : Nat) : List Nat :=
  (List.range width).foldl (setPixel src) (List.replicate ((width + 7) / 8) 0)

/-- `memcpy(buf + off, src, src.length)` on list-modelled buffers. -/
def write_at (buf : List Nat) (off : Nat) (src : List Nat) : List Nat :=
  buf.take off ++ src ++ buf.drop (off + src.length)

/-- The fields of `cups_page_header2_t` that the filter reads.  All are
unsigned in CUPS, hence `Nat`. -/
structure PageHeader where
  cupsWidth : Nat
  cupsHeight : Nat
  cupsBytesPerLine : Nat
  cupsMediaType : Nat

/-- One page as delivered by the raster stream: its header, the pixel rows
`cupsRasterReadPixels` can still deliver before a short read (each of length
`cupsBytesPerLine`), the initial contents of the `malloc`ed page buffer, and
whether the three `malloc` calls succeed. -/
structure PageInput where
  header : PageHeader
  rows : List (List Nat)
  junk : List Nat
  allocOk : Bool

/-- Embedding of the per-page read-and-convert loop
(`for (y = 0; y < height; y++) { if (read == 0) break; convert; memcpy }`).
`fuel` is `height - y`; the result is the final `y` (rows actually read)
and the page buffer. -/
def page_loop (width wb : Nat) : List (List Nat) → Nat → Nat → List Nat → Nat × List Nat
  | _, y, 0, buf => (y, buf)
  | [], y, _ + 1, buf => (y, buf)
  | r :: rest, y, fuel + 1, buf =>
      page_loop width wb rest (y + 1) fuel
        (write_at buf (y * wb) (convert_line_to_1bit r width))

/-- Run the row loop of `main` on one page: start at `y = 0` with the fresh
(uninitialized) `malloc` buffer. -/
def page_assemble (p : PageInput) : Nat × List Nat :=
  let wb := (p.header.cupsWidth + 7) / 8
  page_loop p.header.cupsWidth wb p.rows 0 p.header.cupsHeight p.junk

/-- The bytes `main` emits for one non-skipped page:
`send_header(mediaType ? mediaType : 10)`, then
`send_raster(page_data, width, height)` — note the C code passes
`header.cupsHeight`, not the observed row count — then `send_footer`. -/
def page_bytes (p : PageInput) : List Nat :=
  send_header (if p.header.cupsMediaType ≠ 0 then p.header.cupsMediaType else 10) ++
  send_raster (page_assemble p).2 p.header.cupsWidth p.header.cupsHeight ++
  send_footer

/-- The `ERROR:`-level diagnostic messages the filter can print (the
free-form `DEBUG:` logging is a side channel and is not modelled). -/
inductive Msg
  | usage
  | errOpenInput
  | errRasterOpen
  | errAlloc

/-- Result of one run: exit code, stdout bytes, diagnostic messages. -/
structure RunOut where
  exit : Nat
  stdout : List Nat
  errs : List Msg

/-- Embedding of the `while (cupsRasterReadHeader2(...))` page loop of
`main`: skip pages with zero width or height, exit 1 on allocation failure,
otherwise emit the page's frames and continue. -/
def process_pages : List PageInput → RunOut
  | [] => ⟨0, [], []⟩
  | p :: rest =>
    if p.header.cupsWidth = 0 ∨ p.header.cupsHeight = 0 then
      process_pages rest
    else if p.allocOk = false then
      ⟨1, [], [Msg.errAlloc]⟩
    else
      let r := process_pages rest
      ⟨r.exit, page_bytes p ++ r.stdout, r.errs⟩

/-- Everything one invocation of the filter depends on: the argument count,
whether `open(argv[6])` would succeed (consulted only when `argc = 7`),
whether `cupsRasterOpen` succeeds, and the pages the stream delivers. -/
structure Inputs where
  argc : Nat
  openFileOk : Bool
  rasterOpenOk : Bool
  pages : List PageInput

/-- Embedding of `main`: argument check, input open, raster-stream open,
then the page loop. -/
def main_model (inp : Inputs) : RunOut :=
  if inp.argc < 6 ∨ 7 < inp.argc then
    ⟨1, [], [Msg.usage]⟩
  else if inp.argc = 7 ∧ inp.openFileOk = false then
    ⟨1, [], [Msg.errOpenInput]⟩
  else if inp.rasterOpenOk = false then
    ⟨1, [], [Msg.errRasterOpen]⟩
  else
    process_pages inp.pages

end PM110

namespace PM110

/-! Helper lemmas about list reads and writes. -/

lemma getD_set_self (l : List Nat) (k v : Nat) (hk : k < l.length) :
    (l.set k v).getD k 0 = v := by
  rw [List.getD_eq_getElem?_getD, List.getElem?_set_self hk, Option.getD_some]

lemma getD_set_ne (l : List Nat) (k k' v : Nat) (hne : k ≠ k') :
    (l.set k v).getD k' 0 = l.getD k' 0 := by
  rw [List.getD_eq_getElem?_getD, List.getElem?_set_ne hne, ← List.getD_eq_getElem?_getD]

lemma getD_replicate_zero (n i : Nat) : (List.replicate n (0 : Nat)).getD i 0 = 0 := by
  rw [List.getD_eq_getElem?_getD, List.getElem?_replicate]
  split <;> rfl

lemma setPixel_length (src l : List Nat) (x : Nat) :
    (setPixel src l x).length = l.length := by
  unfold setPixel
  split <;> simp

lemma convFold_length (src : List Nat) (wb n : Nat) :
    ((List.range n).foldl (setPixel src) (List.replicate wb 0)).length = wb := by
  induction n with
  | zero => simp
  | succ n ih =>
    rw [List.range_succ, List.foldl_append, List.foldl_cons, List.foldl_nil,
      setPixel_length, ih]

/-- Invariant of the pixel loop of `convert_line_to_1bit`: after processing
pixels `[0, n)`, bit `j` of output byte `i` is set exactly when the pixel
index `8 * i + (7 - j)` has already been processed and its sample is below
128. -/
lemma convFold_testBit (src : List Nat) (width i j : Nat) :
    ∀ n, n ≤ width →
      (((List.range n).foldl (setPixel src)
          (List.replicate ((width + 7) / 8) 0)).getD i 0).testBit j =
        decide (j < 8 ∧ 8 * i + (7 - j) < n ∧ src.getD (8 * i + (7 - j)) 0 < 128) := by
  intro n
  induction n with
  | zero =>
    intro _
    rw [List.range_zero, List.foldl_nil, getD_replicate_zero, Nat.zero_testBit]
    exact (decide_eq_false (by rintro ⟨_, h2, _⟩; omega)).symm
  | succ n ih =>
    intro hn
    have hih := ih (by omega)
    rw [List.range_succ, List.foldl_append, List.foldl_cons, List.foldl_nil]
    have hlen : ((List.range n).foldl (setPixel src)
        (List.replicate ((width + 7) / 8) 0)).length = (width + 7) / 8 :=
      convFold_length src _ n
    rw [setPixel]
    by_cases hs : src.getD n 0 < 128
    · rw [if_pos hs]
      by_cases hi : i = n / 8
      · subst hi
        rw [getD_set_self _ _ _ (by rw [hlen]; omega), Nat.testBit_or, hih,
          Nat.one_shiftLeft]
        by_cases hj : 7 - n % 8 = j
        · subst hj
          rw [Nat.testBit_two_pow_self, Bool.or_true]
          have hx : 8 * (n / 8) + (7 - (7 - n % 8)) = n := by omega
          refine (decide_eq_true ⟨by omega, by omega, ?_⟩).symm
          rw [hx]
          exact hs
        · rw [Nat.testBit_two_pow_of_ne hj, Bool.or_false, decide_eq_decide]
          constructor
          · rintro ⟨h1, h2, h3⟩
            exact ⟨h1, by omega, h3⟩
          · rintro ⟨h1, h2, h3⟩
            refine ⟨h1, ?_, h3⟩
            have hne : 8 * (n / 8) + (7 - j) ≠ n := by omega
            omega
      · rw [getD_set_ne _ _ _ _ (Ne.symm hi), hih, decide_eq_decide]
        constructor
        · rintro ⟨h1, h2, h3⟩
          exact ⟨h1, by omega, h3⟩
        · rintro ⟨h1, h2, h3⟩
          refine ⟨h1, ?_, h3⟩
          have hne : 8 * i + (7 - j) ≠ n := by omega
          omega
    · rw [if_neg hs, hih, decide_eq_decide]
      constructor
      · rintro ⟨h1, h2, h3⟩
        exact ⟨h1, by omega, h3⟩
      · rintro ⟨h1, h2, h3⟩
        refine ⟨h1, ?_, h3⟩
        rcases Nat.lt_or_ge (8 * i + (7 - j)) n with h | h
        · exact h
        · exfalso
          have hx : 8 * i + (7 - j) = n := by omega
          rw [hx] at h3
          exact hs h3


/-- C2: the thresholder emits `⌈w/8⌉` bytes; bit `7 - (x % 8)` of byte
`x / 8` is set iff the sample `r[x]` is strictly below 128, for `x ∈ [0, w)`;
every other bit of every output byte (including trailing bits of a partial
last byte) is 0. -/
theorem convert_line_spec (r : List Nat) (w : Nat) (hw : w ≤ r.length) :
    (convert_line_to_1bit r w).length = (w + 7) / 8 ∧
    (∀ x, x < w →
      ((convert_line_to_1bit r w).getD (x / 8) 0).testBit (7 - x % 8) =
        decide (r.getD x 0 < 128)) ∧
    (∀ i j, ((convert_line_to_1bit r w).getD i 0).testBit j =
      decide (j < 8 ∧ 8 * i + (7 - j) < w ∧ r.getD (8 * i + (7 - j)) 0 < 128)) := by
  have hlist : w ≤ r.length := hw
  unfold convert_line_to_1bit
  refine ⟨convFold_length r _ w, ?_, ?_⟩
  · intro x hx
    rw [convFold_testBit r w (x / 8) (7 - x % 8) w le_rfl, decide_eq_decide]
    have hx8 : 8 * (x / 8) + (7 - (7 - x % 8)) = x := by omega
    rw [hx8]
    constructor
    · rintro ⟨_, _, h3⟩
      exact h3
    · intro h3
      exact ⟨by omega, by omega, h3⟩
  · intro i j
    exact convFold_testBit r w i j w le_rfl

/-- Witness for `convert_line_spec` at the spec's threshold-boundary row
`7F 80 00 FF` with width 4. -/
theorem convert_line_spec_witness :
    4 ≤ [0x7f, 0x80, 0x00, 0xff].length ∧
    ((convert_line_to_1bit [0x7f, 0x80, 0x00, 0xff] 4).length = (4 + 7) / 8 ∧
     (∀ x, x < 4 →
       ((convert_line_to_1bit [0x7f, 0x80, 0x00, 0xff] 4).getD (x / 8) 0).testBit (7 - x % 8) =
         decide (([0x7f, 0x80, 0x00, 0xff] : List Nat).getD x 0 < 128)) ∧
     (∀ i j, ((convert_line_to_1bit [0x7f, 0x80, 0x00, 0xff] 4).getD i 0).testBit j =
       decide (j < 8 ∧ 8 * i + (7 - j) < 4 ∧
         ([0x7f, 0x80, 0x00, 0xff] : List Nat).getD (8 * i + (7 - j)) 0 < 128))) :=
  ⟨by decide, convert_line_spec [0x7f, 0x80, 0x00, 0xff] 4 (by decide)⟩

end PM110

namespace PM110

/-- A page is emitted (rather than skipped) iff its width and height are
both nonzero. -/
def keptPage (p : PageInput) : Bool :=
  decide (¬(p.header.cupsWidth = 0 ∨ p.header.cupsHeight = 0))

/-! Behaviour of the page loop of `main`. -/

lemma process_pages_ok :
    ∀ l : List PageInput,
      (∀ p ∈ l, p.header.cupsWidth = 0 ∨ p.header.cupsHeight = 0 ∨ p.allocOk = true) →
      process_pages l = ⟨0, ((l.filter keptPage).map page_bytes).flatten, []⟩ := by
  intro l
  induction l with
  | nil => intro _; rfl
  | cons p rest ih =>
    intro h
    have hp := h p (List.mem_cons_self p rest)
    have hrest := fun q hq => h q (List.mem_cons_of_mem p hq)
    by_cases hskip : p.header.cupsWidth = 0 ∨ p.header.cupsHeight = 0
    · have hk : keptPage p = false := by simp [keptPage, hskip]
      simp only [process_pages, if_pos hskip, List.filter_cons, hk, Bool.false_eq_true,
        if_false]
      exact ih hrest
    · have halloc : p.allocOk = true := by tauto
      have hk : keptPage p = true := by simp [keptPage, hskip]
      simp only [process_pages, if_neg hskip, halloc, Bool.true_eq_false, if_false,
        ih hrest, List.filter_cons, hk, if_true, List.map_cons, List.flatten_cons]

lemma process_pages_exit_le :
    ∀ l : List PageInput, (process_pages l).exit = 0 ∨ (process_pages l).exit = 1 := by
  intro l
  induction l with
  | nil => left; rfl
  | cons p rest ih =>
    simp only [process_pages]
    split
    · exact ih
    · split
      · right; rfl
      · exact ih

lemma process_pages_exit_zero_iff :
    ∀ l : List PageInput,
      (process_pages l).exit = 0 ↔
        ∀ p ∈ l, p.header.cupsWidth = 0 ∨ p.header.cupsHeight = 0 ∨ p.allocOk = true := by
  intro l
  induction l with
  | nil => simp [process_pages]
  | cons p rest ih =>
    by_cases hskip : p.header.cupsWidth = 0 ∨ p.header.cupsHeight = 0
    · simp only [process_pages, if_pos hskip, ih]
      constructor
      · intro h q hq
        rcases List.mem_cons.mp hq with rfl | hq'
        · tauto
        · exact h q hq'
      · intro h q hq
        exact h q (List.mem_cons_of_mem p hq)
    · by_cases halloc : p.allocOk = false
      · simp only [process_pages, if_neg hskip, if_pos halloc]
        constructor
        · intro h
          exact absurd h one_ne_zero
        · intro h
          rcases h p (List.mem_cons_self p rest) with h1 | h1 | h1
          · exact absurd (Or.inl h1) hskip
          · exact absurd (Or.inr h1) hskip
          · rw [halloc] at h1
            exact absurd h1 (by simp)
      · simp only [process_pages, if_neg hskip, if_neg halloc, ih]
        constructor
        · intro h q hq
          rcases List.mem_cons.mp hq with rfl | hq'
          · right; right
            cases hb : q.allocOk
            · exact absurd hb halloc
            · rfl
          · exact h q hq'
        · intro h q hq
          exact h q (List.mem_cons_of_mem p hq)

lemma process_pages_fail (p : PageInput) (rest : List PageInput)
    (hp : ¬(p.header.cupsWidth = 0 ∨ p.header.cupsHeight = 0))
    (hpa : p.allocOk = false) :
    ∀ done : List PageInput,
      (∀ q ∈ done, q.header.cupsWidth = 0 ∨ q.header.cupsHeight = 0 ∨ q.allocOk = true) →
      process_pages (done ++ p :: rest) =
        ⟨1, ((done.filter keptPage).map page_bytes).flatten, [Msg.errAlloc]⟩ := by
  intro done
  induction done with
  | nil =>
    intro _
    simp only [List.nil_append, process_pages, if_neg hp, if_pos hpa, List.filter_nil,
      List.map_nil, List.flatten_nil]
  | cons q done ih =>
    intro hdone
    have hq := hdone q (List.mem_cons_self q done)
    have hrest := fun r hr => hdone r (List.mem_cons_of_mem q hr)
    by_cases hskip : q.header.cupsWidth = 0 ∨ q.header.cupsHeight = 0
    · have hk : keptPage q = false := by simp [keptPage, hskip]
      simp only [List.cons_append, process_pages, if_pos hskip, List.filter_cons, hk,
        Bool.false_eq_true, if_false]
      exact ih hrest
    · have halloc : q.allocOk = true := by tauto
      have hk : keptPage q = true := by simp [keptPage, hskip]
      simp only [List.cons_append, process_pages, if_neg hskip, halloc,
        Bool.true_eq_false, if_false, List.filter_cons, hk, if_true,
        List.map_cons, List.flatten_cons, List.append_eq]
      rw [ih hrest]

/-- Every emitted page's byte block ends with the footer frame, so a
concatenation of page blocks is empty or ends at a footer. -/
lemma flatten_pages_footer :
    ∀ l : List PageInput,
      (l.map page_bytes).flatten = [] ∨
      ∃ a, (l.map page_bytes).flatten = a ++ send_footer := by
  intro l
  induction l with
  | nil => left; rfl
  | cons p rest ih =>
    right
    rcases ih with h | ⟨a, ha⟩
    · rw [List.map_cons, List.flatten_cons, h, List.append_nil]
      refine ⟨send_header (if p.header.cupsMediaType ≠ 0 then p.header.cupsMediaType else 10) ++
        send_raster (page_assemble p).2 p.header.cupsWidth p.header.cupsHeight, ?_⟩
      simp [page_bytes]
    · refine ⟨page_bytes p ++ a, ?_⟩
      rw [List.map_cons, List.flatten_cons, ha, List.append_assoc]

/-- When the arguments and both stream opens are fine, `main` is exactly the
page loop. -/
lemma main_model_ok (inp : Inputs) (h6 : 6 ≤ inp.argc) (h7 : inp.argc ≤ 7)
    (hf : inp.argc = 7 → inp.openFileOk = true) (hr : inp.rasterOpenOk = true) :
    main_model inp = process_pages inp.pages := by
  rw [main_model, if_neg (by omega), if_neg ?_, if_neg (by simp [hr])]
  rintro ⟨h7', hof⟩
  rw [hf h7'] at hof
  exact absurd hof (by simp)

end PM110

namespace PM110

/-! Concrete inputs used by the claim theorems and witnesses. -/

/-- Scenario page: 1×1, one black pixel (sample `0x00`), media type 10. -/
def black1x1 : PageInput := ⟨⟨1, 1, 1, 10⟩, [[0x00]], [0], true⟩

/-- Scenario page: 1×1, one white pixel (sample `0xFF`), media type 10. -/
def white1x1 : PageInput := ⟨⟨1, 1, 1, 10⟩, [[0xff]], [0], true⟩

/-- A 1×2 page whose stream delivers only one row: the row loop takes a
short read after one row.  The fresh page buffer happens to hold `[7, 9]`. -/
def shortReadPage : PageInput := ⟨⟨1, 2, 1, 10⟩, [[0x00]], [7, 9], true⟩

/-- A 1×1 black page with media type 256. -/
def media256Page : PageInput := ⟨⟨1, 1, 1, 256⟩, [[0x00]], [0], true⟩

/-- A 1×1 black page with media type 260. -/
def media260Page : PageInput := ⟨⟨1, 1, 1, 260⟩, [[0x00]], [0], true⟩

/-- A 1×1 black page for which the buffer allocations fail. -/
def allocFailPage : PageInput := ⟨⟨1, 1, 1, 10⟩, [[0x00]], [0], false⟩

/-- A page whose header has zero width. -/
def zeroWidthPage : PageInput := ⟨⟨0, 5, 1, 10⟩, [], [], true⟩

/-- C1: on `shortReadPage` (width 1, height 2, only one row available) the
row loop stops after reading 1 row, yet the emitted raster frame carries the
header height 2 in its 16-bit row-count field and `⌈1/8⌉ * 2 = 2` payload
bytes — the second being the uninitialized buffer byte 9 — not the observed
row count 1 with 1 payload byte that the claim (and the spec) state.  The C
code passes `header.cupsHeight`, not the loop counter `y`, to
`send_raster`. -/
theorem short_read_uses_header_height :
    (page_assemble shortReadPage).1 = 1 ∧
    shortReadPage.header.cupsHeight = 2 ∧
    page_bytes shortReadPage =
      [0x1b, 0x4e, 0x0d, 0x05, 0x1b, 0x4e, 0x04, 0x0a, 0x1f, 0x11, 0x0a,
       0x1d, 0x76, 0x30, 0x00, 0x01, 0x00, 0x02, 0x00, 0x80, 0x09,
       0x1f, 0xf0, 0x05, 0x00, 0x1f, 0xf0, 0x03, 0x00] := by
  decide

/-- C3 as stated is false: the byte sequence the claim lists for the 1×1
black page has 28 entries, so the page's output does not consist of 25
bytes. -/
theorem page_bytes_length_not_25 : (page_bytes black1x1).length ≠ 25 := by
  decide

/-- C3 (amended: the 1×1 example output is those listed bytes, which number
28, not 25): every processed page contributes exactly
init-frame ++ raster-frame ++ footer-frame, pages appear in input order with
no other bytes in between, and the 1×1 black-pixel page with media type 10
produces exactly the 28 listed bytes. -/
theorem page_frame_concatenation (inp : Inputs) (h6 : 6 ≤ inp.argc)
    (h7 : inp.argc ≤ 7) (hf : inp.argc = 7 → inp.openFileOk = true)
    (hr : inp.rasterOpenOk = true)
    (ha : ∀ p ∈ inp.pages,
      p.header.cupsWidth = 0 ∨ p.header.cupsHeight = 0 ∨ p.allocOk = true) :
    (main_model inp).stdout = ((inp.pages.filter keptPage).map page_bytes).flatten ∧
    (∀ p : PageInput, page_bytes p =
      send_header (if p.header.cupsMediaType ≠ 0 then p.header.cupsMediaType else 10) ++
      send_raster (page_assemble p).2 p.header.cupsWidth p.header.cupsHeight ++
      send_footer) ∧
    page_bytes black1x1 =
      [0x1b, 0x4e, 0x0d, 0x05, 0x1b, 0x4e, 0x04, 0x0a, 0x1f, 0x11, 0x0a,
       0x1d, 0x76, 0x30, 0x00, 0x01, 0x00, 0x01, 0x00, 0x80,
       0x1f, 0xf0, 0x05, 0x00, 0x1f, 0xf0, 0x03, 0x00] := by
  refine ⟨?_, fun p => rfl, by decide⟩
  rw [main_model_ok inp h6 h7 hf hr, process_pages_ok inp.pages ha]

/-- Two-page job of the spec's scenario 5: 1×1 black then 1×1 white. -/
def twoPageInp : Inputs := ⟨6, true, true, [black1x1, white1x1]⟩

/-- Witness for `page_frame_concatenation` on the two-page job. -/
theorem page_frame_concatenation_witness :
    (6 ≤ twoPageInp.argc ∧ twoPageInp.argc ≤ 7 ∧
     (twoPageInp.argc = 7 → twoPageInp.openFileOk = true) ∧
     twoPageInp.rasterOpenOk = true ∧
     (∀ p ∈ twoPageInp.pages,
       p.header.cupsWidth = 0 ∨ p.header.cupsHeight = 0 ∨ p.allocOk = true)) ∧
    ((main_model twoPageInp).stdout =
      ((twoPageInp.pages.filter keptPage).map page_bytes).flatten ∧
     (∀ p : PageInput, page_bytes p =
       send_header (if p.header.cupsMediaType ≠ 0 then p.header.cupsMediaType else 10) ++
       send_raster (page_assemble p).2 p.header.cupsWidth p.header.cupsHeight ++
       send_footer) ∧
     page_bytes black1x1 =
       [0x1b, 0x4e, 0x0d, 0x05, 0x1b, 0x4e, 0x04, 0x0a, 0x1f, 0x11, 0x0a,
        0x1d, 0x76, 0x30, 0x00, 0x01, 0x00, 0x01, 0x00, 0x80,
        0x1f, 0xf0, 0x05, 0x00, 0x1f, 0xf0, 0x03, 0x00]) :=
  ⟨⟨by decide, by decide, by decide, rfl, by decide⟩,
   page_frame_concatenation twoPageInp (by decide) (by decide) (by decide) rfl (by decide)⟩

/-- C4 as stated is false: for the page with (nonzero) media type 256 the
emitted init frame carries 0 in its media-type slot, not the header's
value. -/
theorem media_type_256_cex :
    media256Page.header.cupsMediaType ≠ 0 ∧
    (page_bytes media256Page).getD 10 0 = 0 ∧
    (page_bytes media256Page).getD 10 0 ≠ media256Page.header.cupsMediaType := by
  decide

/-- C4 (amended: a nonzero media type is emitted reduced mod 256 — equal to
the header value exactly when it is below 256): for every page, the
media-type byte of the emitted init frame is `media_type % 256` when the
header's media type is nonzero, and `0x0A` (10) when it is zero. -/
theorem media_type_slot (p : PageInput) :
    (page_bytes p).getD 10 0 =
      if p.header.cupsMediaType = 0 then 10 else p.header.cupsMediaType % 256 := by
  by_cases h : p.header.cupsMediaType = 0 <;>
    simp [page_bytes, send_header, ESC, h]

/-- C9: for every page with nonzero media type, the byte emitted in the init
frame's media-type slot is `media_type % 256` — values of 256 or more are
silently truncated to their low 8 bits rather than rejected. -/
theorem media_type_truncated (p : PageInput) (h : p.header.cupsMediaType ≠ 0) :
    (page_bytes p).getD 10 0 = p.header.cupsMediaType % 256 := by
  simp [page_bytes, send_header, ESC, h]

/-- Witness for `media_type_truncated` at media type 260 (slot byte 4). -/
theorem media_type_truncated_witness :
    media260Page.header.cupsMediaType ≠ 0 ∧
    (page_bytes media260Page).getD 10 0 = media260Page.header.cupsMediaType % 256 :=
  ⟨by decide, media_type_truncated media260Page (by decide)⟩

/-- C5: a page whose header has zero width or zero height produces no output
bytes, and processing continues with the next page header. -/
theorem empty_page_skipped (p : PageInput) (rest : List PageInput)
    (h : p.header.cupsWidth = 0 ∨ p.header.cupsHeight = 0) :
    process_pages (p :: rest) = process_pages rest := by
  simp only [process_pages, if_pos h]

/-- Witness for `empty_page_skipped` on a zero-width page. -/
theorem empty_page_skipped_witness :
    (zeroWidthPage.header.cupsWidth = 0 ∨ zeroWidthPage.header.cupsHeight = 0) ∧
    process_pages (zeroWidthPage :: [black1x1]) = process_pages [black1x1] :=
  ⟨by decide, empty_page_skipped zeroWidthPage [black1x1] (by decide)⟩

/-- C6: for any argument vector whose arity is outside [6, 7], the filter
produces exit code 1, the single-line usage message on the diagnostic
channel, and an empty output stream — whatever the input streams and pages
hold (no stream I/O is performed: the result does not depend on them). -/
theorem bad_arity_usage (inp : Inputs) (h : inp.argc < 6 ∨ 7 < inp.argc) :
    main_model inp = ⟨1, [], [Msg.usage]⟩ := by
  rw [main_model, if_pos h]

/-- An invocation with three arguments and a nonempty stream behind it. -/
def badArityInp : Inputs := ⟨3, true, true, [black1x1]⟩

/-- Witness for `bad_arity_usage` at `argc = 3`. -/
theorem bad_arity_usage_witness :
    (badArityInp.argc < 6 ∨ 7 < badArityInp.argc) ∧
    main_model badArityInp = ⟨1, [], [Msg.usage]⟩ :=
  ⟨by decide, bad_arity_usage badArityInp (by decide)⟩

end PM110

namespace PM110

/-- C7: the exit code is always 0 or 1; it is 0 exactly when the arity is
valid, the named input file (when present) opens, the raster stream opens,
and every non-skipped page's buffer allocations succeed; and a run with a
valid arity, successful opens and zero pages exits 0 with no output bytes
and no error messages. -/
theorem exit_code_spec (inp : Inputs) :
    ((main_model inp).exit = 0 ∨ (main_model inp).exit = 1) ∧
    ((main_model inp).exit = 0 ↔
      (6 ≤ inp.argc ∧ inp.argc ≤ 7 ∧ (inp.argc = 7 → inp.openFileOk = true) ∧
       inp.rasterOpenOk = true ∧
       ∀ p ∈ inp.pages,
         p.header.cupsWidth = 0 ∨ p.header.cupsHeight = 0 ∨ p.allocOk = true)) ∧
    ((6 ≤ inp.argc ∧ inp.argc ≤ 7 ∧ (inp.argc = 7 → inp.openFileOk = true) ∧
      inp.rasterOpenOk = true ∧ inp.pages = []) →
      main_model inp = ⟨0, [], []⟩) := by
  by_cases h1 : inp.argc < 6 ∨ 7 < inp.argc
  · rw [main_model, if_pos h1]
    refine ⟨Or.inr rfl, ?_, ?_⟩
    · constructor
      · intro h
        exact absurd h one_ne_zero
      · rintro ⟨ha, hb, _⟩
        omega
    · rintro ⟨ha, hb, _, _, _⟩
      omega
  · by_cases h2 : inp.argc = 7 ∧ inp.openFileOk = false
    · rw [main_model, if_neg h1, if_pos h2]
      refine ⟨Or.inr rfl, ?_, ?_⟩
      · constructor
        · intro h
          exact absurd h one_ne_zero
        · rintro ⟨_, _, hof, _, _⟩
          exact absurd h2.2 (by simp [hof h2.1])
      · rintro ⟨_, _, hof, _, _⟩
        exact absurd h2.2 (by simp [hof h2.1])
    · by_cases h3 : inp.rasterOpenOk = false
      · rw [main_model, if_neg h1, if_neg h2, if_pos h3]
        refine ⟨Or.inr rfl, ?_, ?_⟩
        · constructor
          · intro h
            exact absurd h one_ne_zero
          · rintro ⟨_, _, _, hrr, _⟩
            rw [hrr] at h3
            exact absurd h3 (by simp)
        · rintro ⟨_, _, _, hrr, _⟩
          rw [hrr] at h3
          exact absurd h3 (by simp)
      · have hmm : main_model inp = process_pages inp.pages := by
          rw [main_model, if_neg h1, if_neg h2, if_neg h3]
        have hargs : 6 ≤ inp.argc ∧ inp.argc ≤ 7 := by omega
        have hof : inp.argc = 7 → inp.openFileOk = true := by
          intro h7
          cases hb : inp.openFileOk
          · exact absurd ⟨h7, hb⟩ h2
          · rfl
        have hro : inp.rasterOpenOk = true := by
          cases hb : inp.rasterOpenOk
          · exact absurd hb h3
          · rfl
        rw [hmm]
        refine ⟨process_pages_exit_le inp.pages, ?_, ?_⟩
        · rw [process_pages_exit_zero_iff]
          constructor
          · intro h
            exact ⟨hargs.1, hargs.2, hof, hro, h⟩
          · rintro ⟨_, _, _, _, h⟩
            exact h
        · rintro ⟨_, _, _, _, hpages⟩
          rw [hpages]
          rfl

/-- The degenerate invocation: valid arity, streams open, zero pages. -/
def emptyRunInp : Inputs := ⟨6, true, true, []⟩

/-- Witness for `exit_code_spec` on the zero-page run. -/
theorem exit_code_spec_witness :
    ((main_model emptyRunInp).exit = 0 ∨ (main_model emptyRunInp).exit = 1) ∧
    ((main_model emptyRunInp).exit = 0 ↔
      (6 ≤ emptyRunInp.argc ∧ emptyRunInp.argc ≤ 7 ∧
       (emptyRunInp.argc = 7 → emptyRunInp.openFileOk = true) ∧
       emptyRunInp.rasterOpenOk = true ∧
       ∀ p ∈ emptyRunInp.pages,
         p.header.cupsWidth = 0 ∨ p.header.cupsHeight = 0 ∨ p.allocOk = true)) ∧
    ((6 ≤ emptyRunInp.argc ∧ emptyRunInp.argc ≤ 7 ∧
      (emptyRunInp.argc = 7 → emptyRunInp.openFileOk = true) ∧
      emptyRunInp.rasterOpenOk = true ∧ emptyRunInp.pages = []) →
      main_model emptyRunInp = ⟨0, [], []⟩) :=
  exit_code_spec emptyRunInp

/-- C8: the filter is deterministic — it is a pure function of the argument
vector and the streams, so byte-identical inputs give byte-identical output
streams and equal exit codes. -/
theorem run_deterministic (i1 i2 : Inputs) (h : i1 = i2) :
    main_model i1 = main_model i2 := by
  rw [h]

/-- A seven-argument invocation with one page. -/
def detInp : Inputs := ⟨7, true, true, [black1x1]⟩

/-- Witness for `run_deterministic`. -/
theorem run_deterministic_witness :
    detInp = detInp ∧ main_model detInp = main_model detInp :=
  ⟨rfl, run_deterministic detInp detInp rfl⟩

/-- C10: under a valid arity and successful opens, if the page stream is a
list of fully successful pages followed by a page whose buffer allocation
fails, the run exits 1 with only the allocation error message, stdout is
exactly the concatenation of the earlier pages' full frames — no byte of
the failing page is emitted — and it is empty or ends at the footer frame
of the last fully emitted page. -/
theorem alloc_failure_atomic (inp : Inputs) (done : List PageInput)
    (p : PageInput) (rest : List PageInput)
    (h6 : 6 ≤ inp.argc) (h7 : inp.argc ≤ 7)
    (hf : inp.argc = 7 → inp.openFileOk = true) (hr : inp.rasterOpenOk = true)
    (hsplit : inp.pages = done ++ p :: rest)
    (hdone : ∀ q ∈ done,
      q.header.cupsWidth = 0 ∨ q.header.cupsHeight = 0 ∨ q.allocOk = true)
    (hp : ¬(p.header.cupsWidth = 0 ∨ p.header.cupsHeight = 0))
    (hpa : p.allocOk = false) :
    main_model inp =
      ⟨1, ((done.filter keptPage).map page_bytes).flatten, [Msg.errAlloc]⟩ ∧
    (((done.filter keptPage).map page_bytes).flatten = [] ∨
      ∃ a, ((done.filter keptPage).map page_bytes).flatten = a ++ send_footer) := by
  refine ⟨?_, flatten_pages_footer (done.filter keptPage)⟩
  rw [main_model_ok inp h6 h7 hf hr, hsplit]
  exact process_pages_fail p rest hp hpa done hdone

/-- One good page followed by a page whose allocation fails. -/
def allocFailInp : Inputs := ⟨6, true, true, [black1x1, allocFailPage]⟩

/-- Witness for `alloc_failure_atomic`. -/
theorem alloc_failure_atomic_witness :
    (6 ≤ allocFailInp.argc ∧ allocFailInp.argc ≤ 7 ∧
     (allocFailInp.argc = 7 → allocFailInp.openFileOk = true) ∧
     allocFailInp.rasterOpenOk = true ∧
     allocFailInp.pages = [black1x1] ++ allocFailPage :: [] ∧
     (∀ q ∈ [black1x1],
       q.header.cupsWidth = 0 ∨ q.header.cupsHeight = 0 ∨ q.allocOk = true) ∧
     ¬(allocFailPage.header.cupsWidth = 0 ∨ allocFailPage.header.cupsHeight = 0) ∧
     allocFailPage.allocOk = false) ∧
    (main_model allocFailInp =
      ⟨1, (([black1x1].filter keptPage).map page_bytes).flatten, [Msg.errAlloc]⟩ ∧
     ((([black1x1].filter keptPage).map page_bytes).flatten = [] ∨
      ∃ a, (([black1x1].filter keptPage).map page_bytes).flatten =
        a ++ send_footer)) :=
  ⟨⟨by decide, by decide, by decide, rfl, rfl, by decide, by decide, rfl⟩,
   alloc_failure_atomic allocFailInp [black1x1] allocFailPage [] (by decide)
     (by decide) (by decide) rfl rfl (by decide) (by decide) rfl⟩

end PM110
